import Mathlib

/-!
Shallow embedding of the ChairChart geometric core.

Two source modules are embedded here, faithfully to the TypeScript source:

* the viewport transform engine (src/utils/canvasTransforms.ts) — embedded
  over ℚ, since it is pure rational arithmetic (IEEE floats replaced by
  exact rationals);
* the seat geometry engine (seatGeometry.ts variant with seatConfig
  support) — embedded over an arbitrary linearly ordered field K together
  with an abstract trigonometry record (cos, sin, π), so that statements
  that need real trigonometric identities can instantiate K := ℝ with
  Real.cos / Real.sin / Real.pi while everything that is independent of
  trigonometry stays computable.

JavaScript number semantics notes recorded where they matter:
Math.ceil(n / 2) on a natural n is (n + 1) / 2 in ℕ; Math.round is
round-half-up, matching Mathlib's round; a JS default parameter value
replaces an argument that is exactly undefined.
-/

set_option maxHeartbeats 1000000

/-- Two-dimensional point or vector (the source's Vec2). -/
@[ext]
structure Vec2 (K : Type) where
  x : K
  y : K
  deriving DecidableEq

/-- View transform: zoom factor plus pan offset (canvasTransforms.ts ViewTransform). -/
@[ext]
structure ViewTransform where
  zoom : ℚ
  pan : Vec2 ℚ
  deriving DecidableEq

/-- Rendering surface size in pixels (canvasTransforms.ts Viewport). -/
structure Viewport where
  width : ℚ
  height : ℚ
  deriving DecidableEq

/-- Source constant GRID_SIZE = 20. -/
def GRID_SIZE : ℚ := 20

/-- Source: clamp(v, min, max) = Math.min(max, Math.max(min, v)). -/
def clamp (v vmin vmax : ℚ) : ℚ := min vmax (max vmin v)

/-- Source: screenToWorld(screenPoint, transform) = (screen - pan) / zoom componentwise. -/
def screenToWorld (screenPoint : Vec2 ℚ) (transform : ViewTransform) : Vec2 ℚ :=
  ⟨(screenPoint.x - transform.pan.x) / transform.zoom,
   (screenPoint.y - transform.pan.y) / transform.zoom⟩

/-- Source: worldToScreen(worldPoint, transform) = world * zoom + pan componentwise. -/
def worldToScreen (worldPoint : Vec2 ℚ) (transform : ViewTransform) : Vec2 ℚ :=
  ⟨worldPoint.x * transform.zoom + transform.pan.x,
   worldPoint.y * transform.zoom + transform.pan.y⟩

/-- Result record of getWorldBounds. -/
structure WorldBounds where
  min : Vec2 ℚ
  max : Vec2 ℚ
  width : ℚ
  height : ℚ
  deriving DecidableEq

/-- Source: getWorldBounds maps the two screen corners through screenToWorld. -/
def getWorldBounds (viewport : Viewport) (transform : ViewTransform) : WorldBounds :=
  let topLeft := screenToWorld ⟨0, 0⟩ transform
  let bottomRight := screenToWorld ⟨viewport.width, viewport.height⟩ transform
  ⟨topLeft, bottomRight, bottomRight.x - topLeft.x, bottomRight.y - topLeft.y⟩

/-- World-space axis-aligned bounding box, as passed to calculateFitTransform. -/
structure Bounds where
  min : Vec2 ℚ
  max : Vec2 ℚ
  deriving DecidableEq

/-- Source: calculateFitTransform(bounds, viewport, padding = 20).  The
padding default is made an explicit argument here. -/
def calculateFitTransform (bounds : Bounds) (viewport : Viewport) (padding : ℚ) :
    ViewTransform :=
  let boundsWidth := bounds.max.x - bounds.min.x
  let boundsHeight := bounds.max.y - bounds.min.y
  if boundsWidth ≤ 0 ∨ boundsHeight ≤ 0 then
    ⟨1, ⟨0, 0⟩⟩
  else
    let availableWidth := viewport.width - padding * 2
    let availableHeight := viewport.height - padding * 2
    let scaleX := availableWidth / boundsWidth
    let scaleY := availableHeight / boundsHeight
    let zoom := clamp (min scaleX scaleY) 0.1 8
    let boundsCenter : Vec2 ℚ := ⟨(bounds.min.x + bounds.max.x) / 2, (bounds.min.y + bounds.max.y) / 2⟩
    let viewportCenter : Vec2 ℚ := ⟨viewport.width / 2, viewport.height / 2⟩
    ⟨zoom, ⟨viewportCenter.x - boundsCenter.x * zoom, viewportCenter.y - boundsCenter.y * zoom⟩⟩

/-- Vertical grid line entry of getVisibleGridLines. -/
structure VerticalLine where
  x : ℚ
  major : Bool
  deriving DecidableEq

/-- Horizontal grid line entry of getVisibleGridLines. -/
structure HorizontalLine where
  y : ℚ
  major : Bool
  deriving DecidableEq

/-- Result record of getVisibleGridLines. -/
structure GridLines where
  verticals : List VerticalLine
  horizontals : List HorizontalLine
  worldBounds : WorldBounds
  deriving DecidableEq

/-- Source constant: const maxLines = 400 (safety cap per direction). -/
def maxLines : ℕ := 400

/-- One axis of the capped enumeration loop
for (let x = startX; x <= endX and count < maxLines; x += gridSize, count++).
The fuel argument is maxLines - count: the loop body runs only while the
coordinate has not passed endCoord and fuel remains, consuming one unit of
fuel per iteration exactly as count++ does in the source. -/
def gridCoords (endCoord step : ℚ) : ℚ → ℕ → List ℚ
  | _, 0 => []
  | start, fuel + 1 =>
    if start ≤ endCoord then start :: gridCoords endCoord step (start + step) fuel
    else []

/-- Major tag of a line: index % majorEvery === 0 with index = Math.round(x / gridSize).
Int.emod agrees with the JS remainder on the test against zero for every
nonzero majorEvery. -/
def gridMajor (coord gridSize : ℚ) (majorEvery : ℤ) : Bool :=
  round (coord / gridSize) % majorEvery == 0

/-- Source: getVisibleGridLines(viewport, transform, gridSize = 20, majorEvery = 5);
both defaults are explicit arguments here. -/
def getVisibleGridLines (viewport : Viewport) (transform : ViewTransform)
    (gridSize : ℚ) (majorEvery : ℤ) : GridLines :=
  let worldBounds := getWorldBounds viewport transform
  let startX := (⌊worldBounds.min.x / gridSize⌋ : ℚ) * gridSize
  let startY := (⌊worldBounds.min.y / gridSize⌋ : ℚ) * gridSize
  let endX := (⌈worldBounds.max.x / gridSize⌉ : ℚ) * gridSize
  let endY := (⌈worldBounds.max.y / gridSize⌉ : ℚ) * gridSize
  let verticals := (gridCoords endX gridSize startX maxLines).map
    fun x => VerticalLine.mk x (gridMajor x gridSize majorEvery)
  let horizontals := (gridCoords endY gridSize startY maxLines).map
    fun y => HorizontalLine.mk y (gridMajor y gridSize majorEvery)
  ⟨verticals, horizontals, worldBounds⟩

/-- Source: calculateZoomAtPoint(currentTransform, zoomPoint, newZoom). -/
def calculateZoomAtPoint (currentTransform : ViewTransform) (zoomPoint : Vec2 ℚ)
    (newZoom : ℚ) : ViewTransform :=
  let clampedZoom := clamp newZoom 0.1 8
  if clampedZoom = currentTransform.zoom then currentTransform
  else
    let worldPoint := screenToWorld zoomPoint currentTransform
    ⟨clampedZoom,
     ⟨zoomPoint.x - worldPoint.x * clampedZoom, zoomPoint.y - worldPoint.y * clampedZoom⟩⟩

/-- Source: lerp(a, b, t) = a + (b - a) * t. -/
def lerp (a b t : ℚ) : ℚ := a + (b - a) * t

/-- Source: lerpVec2 interpolates componentwise. -/
def lerpVec2 (a b : Vec2 ℚ) (t : ℚ) : Vec2 ℚ := ⟨lerp a.x b.x t, lerp a.y b.y t⟩

/-- Source: lerpTransform interpolates zoom and pan independently, with no clamping. -/
def lerpTransform (a b : ViewTransform) (t : ℚ) : ViewTransform :=
  ⟨lerp a.zoom b.zoom t, lerpVec2 a.pan b.pan t⟩

/-! Seat geometry engine.  Everything below is polymorphic over a linearly
ordered field K and an abstract trigonometry record, so defs stay
computable; theorems that need the Pythagorean identity instantiate the
record with Real.cos, Real.sin and Real.pi. -/

/-- Abstract stand-in for Math.cos, Math.sin and Math.PI. -/
structure Trig (K : Type) where
  cos : K → K
  sin : K → K
  pi : K

/-- Concrete rational trigonometry used only to instantiate universally
quantified theorems at evaluable inputs (it agrees with real trigonometry
at angle 0, the only angle those instantiations use). -/
def constTrig : Trig ℚ := ⟨fun _ => 1, fun _ => 0, 3⟩

variable {K : Type} [LinearOrderedField K]

/-- Source rotatePoint(point, degrees): clockwise rotation in a y-down
coordinate system, with θ = degrees * π / 180. -/
def rotatePoint (tr : Trig K) (point : Vec2 K) (degrees : K) : Vec2 K :=
  let radians := degrees * tr.pi / 180
  let c := tr.cos radians
  let s := tr.sin radians
  ⟨point.x * c - point.y * s, point.x * s + point.y * c⟩

/-- Output record of the seat geometry engine (types.ts SeatPosition). -/
@[ext]
structure SeatPosition (K : Type) where
  position : Vec2 K
  angle : K
  seatNumber : ℕ
  deriving DecidableEq

/-- A seat before the running seatNumber counter is attached. -/
structure RawSeat (K : Type) where
  position : Vec2 K
  angle : K
  deriving DecidableEq

/-- The source's mutable let seatNumber = 1 / seatNumber++ pattern: pushes
receive consecutive seat numbers starting at 1 in push order. -/
def numberSeats (raw : List (RawSeat K)) : List (SeatPosition K) :=
  raw.enum.map fun p => ⟨p.2.position, p.2.angle, p.1 + 1⟩

/-- Table size record (width and height). -/
structure Size (K : Type) where
  width : K
  height : K
  deriving DecidableEq

/-- The closed shape enumeration from types.ts. -/
inductive TableShape where
  | round
  | rect
  | square
  deriving DecidableEq

/-- types.ts SeatConfig: an optional cornerSeats count (schema: integer in [0,4];
modelled as ℕ, the source's Math.min logic is total in it). -/
structure SeatConfig where
  cornerSeats : Option ℕ
  deriving DecidableEq

/-- The geometry-relevant fields of types.ts Table (id, name and position do
not influence the relative seat layout and are omitted). -/
structure Table (K : Type) where
  shape : TableShape
  seatCount : ℕ
  size : Size K
  rotation : K
  seatConfig : Option SeatConfig
  deriving DecidableEq

/-- Source getRoundTableSeatPositions(seatCount, radius, rotation). -/
def getRoundTableSeatPositions (tr : Trig K) (seatCount : ℕ) (radius rotation : K) :
    List (SeatPosition K) :=
  let angleStep := 2 * tr.pi / (seatCount : K)
  let seatRadius := radius + 30
  (List.range seatCount).map fun (i : ℕ) =>
    let angle := (i : K) * angleStep + rotation * tr.pi / 180
    ⟨⟨tr.cos angle * seatRadius, tr.sin angle * seatRadius⟩, angle + tr.pi / 2, (i + 1 : ℕ)⟩

/-- Source distributeSeatsAroundPerimeter(seatCount, size, rotation): equal
arc-length spacing along the rectangle perimeter, walking top, right,
bottom, left from the top-left corner of the top edge. -/
def distributeSeatsAroundPerimeter (tr : Trig K) (seatCount : ℕ) (size : Size K)
    (rotation : K) : List (SeatPosition K) :=
  let width := size.width
  let height := size.height
  let perimeter := 2 * (width + height)
  let seatSpacing := perimeter / (seatCount : K)
  let offset : K := 30
  (List.range seatCount).map fun (i : ℕ) =>
    let dist := (i : K) * seatSpacing
    let raw : RawSeat K :=
      if dist ≤ width then
        ⟨⟨dist - width / 2, -(height / 2) - offset⟩, tr.pi / 2⟩
      else if dist ≤ width + height then
        ⟨⟨width / 2 + offset, (dist - width) - height / 2⟩, tr.pi⟩
      else if dist ≤ 2 * width + height then
        ⟨⟨width / 2 - (dist - width - height), height / 2 + offset⟩, -(tr.pi) / 2⟩
      else
        ⟨⟨-(width / 2) - offset, height / 2 - (dist - 2 * width - height)⟩, 0⟩
    ⟨rotatePoint tr raw.position rotation, raw.angle + rotation * tr.pi / 180, (i + 1 : ℕ)⟩

/-- Horizontal-orientation corner seats, in source push order: right end,
left end, then top-right and top-left corners, gated by actualCornerSeats. -/
def rectEndSeatsH (tr : Trig K) (width height offset rotation : K)
    (actualCornerSeats : ℕ) : List (RawSeat K) :=
  (if 1 ≤ actualCornerSeats then
    [⟨rotatePoint tr ⟨width / 2 + offset, 0⟩ rotation, tr.pi + rotation * tr.pi / 180⟩]
   else [])
  ++ (if 2 ≤ actualCornerSeats then
    [⟨rotatePoint tr ⟨-(width / 2) - offset, 0⟩ rotation, 0 + rotation * tr.pi / 180⟩]
   else [])
  ++ (if 3 ≤ actualCornerSeats then
    [⟨rotatePoint tr ⟨width / 2, -(height / 2) - offset⟩ rotation, tr.pi / 2 + rotation * tr.pi / 180⟩]
   else [])
  ++ (if 4 ≤ actualCornerSeats then
    [⟨rotatePoint tr ⟨-(width / 2), -(height / 2) - offset⟩ rotation, tr.pi / 2 + rotation * tr.pi / 180⟩]
   else [])

/-- Horizontal-orientation top edge seats; the start and end abscissae shrink
when corner seats 3 or 4 already occupy the top corners. -/
def rectTopEdgeSeats (tr : Trig K) (width height offset rotation : K)
    (actualCornerSeats topSeats : ℕ) : List (RawSeat K) :=
  let topStartX := if 4 ≤ actualCornerSeats then -(width / 2) + width / (topSeats : K) else -(width / 2)
  let topEndX := if 3 ≤ actualCornerSeats then width / 2 - width / (topSeats : K) else width / 2
  (List.range topSeats).map fun (i : ℕ) =>
    let t : K := if topSeats = 1 then 1 / 2 else (i : K) / ((topSeats : K) - 1)
    ⟨rotatePoint tr ⟨topStartX + (topEndX - topStartX) * t, -(height / 2) - offset⟩ rotation,
      tr.pi / 2 + rotation * tr.pi / 180⟩

/-- Horizontal-orientation bottom edge seats, traversed right to left. -/
def rectBottomEdgeSeats (tr : Trig K) (width height offset rotation : K)
    (bottomSeats : ℕ) : List (RawSeat K) :=
  (List.range bottomSeats).map fun (i : ℕ) =>
    let t : K := if bottomSeats = 1 then 1 / 2 else (i : K) / ((bottomSeats : K) - 1)
    ⟨rotatePoint tr ⟨width / 2 - width * t, height / 2 + offset⟩ rotation,
      -(tr.pi) / 2 + rotation * tr.pi / 180⟩

/-- Vertical-orientation corner seats, in source push order: top end, bottom
end, then left and right sides. -/
def rectEndSeatsV (tr : Trig K) (width height offset rotation : K)
    (actualCornerSeats : ℕ) : List (RawSeat K) :=
  (if 1 ≤ actualCornerSeats then
    [⟨rotatePoint tr ⟨0, -(height / 2) - offset⟩ rotation, tr.pi / 2 + rotation * tr.pi / 180⟩]
   else [])
  ++ (if 2 ≤ actualCornerSeats then
    [⟨rotatePoint tr ⟨0, height / 2 + offset⟩ rotation, -(tr.pi) / 2 + rotation * tr.pi / 180⟩]
   else [])
  ++ (if 3 ≤ actualCornerSeats then
    [⟨rotatePoint tr ⟨-(width / 2) - offset, 0⟩ rotation, 0 + rotation * tr.pi / 180⟩]
   else [])
  ++ (if 4 ≤ actualCornerSeats then
    [⟨rotatePoint tr ⟨width / 2 + offset, 0⟩ rotation, tr.pi + rotation * tr.pi / 180⟩]
   else [])

/-- Vertical-orientation left edge seats, traversed bottom to top. -/
def rectLeftEdgeSeats (tr : Trig K) (width height offset rotation : K)
    (leftSeats : ℕ) : List (RawSeat K) :=
  (List.range leftSeats).map fun (i : ℕ) =>
    let t : K := if leftSeats = 1 then 1 / 2 else (i : K) / ((leftSeats : K) - 1)
    ⟨rotatePoint tr ⟨-(width / 2) - offset, height / 2 - height * t⟩ rotation,
      0 + rotation * tr.pi / 180⟩

/-- Vertical-orientation right edge seats, traversed top to bottom. -/
def rectRightEdgeSeats (tr : Trig K) (width height offset rotation : K)
    (rightSeats : ℕ) : List (RawSeat K) :=
  (List.range rightSeats).map fun (i : ℕ) =>
    let t : K := if rightSeats = 1 then 1 / 2 else (i : K) / ((rightSeats : K) - 1)
    ⟨rotatePoint tr ⟨width / 2 + offset, -(height / 2) + height * t⟩ rotation,
      tr.pi + rotation * tr.pi / 180⟩

/-- Source getRectTableSeatPositions(seatCount, size, rotation, cornerSeats = 2).
The argument mirrors the call site seatConfig?.cornerSeats; the JS default
parameter replaces an undefined argument by 2 (Option.getD), so the
source's subsequent cornerSeats === undefined disjunct can never be true
and the perimeter branch is taken exactly when seatCount <= 4.
Math.ceil(remainingSeats / 2) is (remainingSeats + 1) / 2 in ℕ. -/
def getRectTableSeatPositions (tr : Trig K) (seatCount : ℕ) (size : Size K)
    (rotation : K) (cornerSeatsArg : Option ℕ) : List (SeatPosition K) :=
  let cornerSeats := cornerSeatsArg.getD 2
  let width := size.width
  let height := size.height
  let offset : K := 30
  if seatCount ≤ 4 then
    distributeSeatsAroundPerimeter tr seatCount size rotation
  else
    let actualCornerSeats := min (min cornerSeats seatCount) 4
    let remainingSeats := seatCount - actualCornerSeats
    if height ≤ width then
      let topSeats := (remainingSeats + 1) / 2
      let bottomSeats := remainingSeats - topSeats
      numberSeats (rectEndSeatsH tr width height offset rotation actualCornerSeats
        ++ rectTopEdgeSeats tr width height offset rotation actualCornerSeats topSeats
        ++ rectBottomEdgeSeats tr width height offset rotation bottomSeats)
    else
      let leftSeats := (remainingSeats + 1) / 2
      let rightSeats := remainingSeats - leftSeats
      numberSeats (rectEndSeatsV tr width height offset rotation actualCornerSeats
        ++ rectLeftEdgeSeats tr width height offset rotation leftSeats
        ++ rectRightEdgeSeats tr width height offset rotation rightSeats)

/-- One side of the square layout: seats evenly spaced from (startX, startY)
to (endX, endY), a single seat sitting at parameter t = 1/2. -/
def squareSideSeats (tr : Trig K) (rotation : K) (seats : ℕ)
    (startX startY endX endY sideAngle : K) : List (RawSeat K) :=
  (List.range seats).map fun (i : ℕ) =>
    let t : K := if seats = 1 then 1 / 2 else (i : K) / ((seats : K) - 1)
    ⟨rotatePoint tr ⟨startX + (endX - startX) * t, startY + (endY - startY) * t⟩ rotation,
      sideAngle + rotation * tr.pi / 180⟩

/-- Source getSquareTableSeatPositions(seatCount, size, rotation): the four
sides in order top, right, bottom, left, with the remainder seats going to
the first remainder sides. -/
def getSquareTableSeatPositions (tr : Trig K) (seatCount : ℕ) (size rotation : K) :
    List (SeatPosition K) :=
  let offset : K := 30
  let halfSize := size / 2
  let seatsPerSide := seatCount / 4
  let remainingSeats := seatCount % 4
  numberSeats
    (squareSideSeats tr rotation (seatsPerSide + if 0 < remainingSeats then 1 else 0)
        (-halfSize) (-halfSize - offset) halfSize (-halfSize - offset) (tr.pi / 2)
      ++ squareSideSeats tr rotation (seatsPerSide + if 1 < remainingSeats then 1 else 0)
        (halfSize + offset) (-halfSize) (halfSize + offset) halfSize tr.pi
      ++ squareSideSeats tr rotation (seatsPerSide + if 2 < remainingSeats then 1 else 0)
        halfSize (halfSize + offset) (-halfSize) (halfSize + offset) (-(tr.pi) / 2)
      ++ squareSideSeats tr rotation seatsPerSide
        (-halfSize - offset) halfSize (-halfSize - offset) (-halfSize) 0)

/-- Source getSeatPositions(table): dispatch on the closed shape enumeration
(the source's default-throw branch is unreachable for the closed type).
The rect call site passes seatConfig?.cornerSeats. -/
def getSeatPositions (tr : Trig K) (table : Table K) : List (SeatPosition K) :=
  match table.shape with
  | TableShape.round =>
      getRoundTableSeatPositions tr table.seatCount (table.size.width / 2) table.rotation
  | TableShape.rect =>
      getRectTableSeatPositions tr table.seatCount table.size table.rotation
        (table.seatConfig.bind SeatConfig.cornerSeats)
  | TableShape.square =>
      getSquareTableSeatPositions tr table.seatCount table.size.width table.rotation

/-- The claim-side per-side count formula for square tables:
side k gets seatCount / 4 plus one extra when k < seatCount % 4. -/
def squareSideCount (seatCount k : ℕ) : ℕ :=
  seatCount / 4 + if k < seatCount % 4 then 1 else 0

/-! Helper lemmas. -/

/-- The capped loop produces at most fuel entries. -/
theorem gridCoords_length_le (endCoord step : ℚ) :
    ∀ (start : ℚ) (fuel : ℕ), (gridCoords endCoord step start fuel).length ≤ fuel := by
  intro start fuel
  induction fuel generalizing start with
  | zero => simp [gridCoords]
  | succ n ih =>
    rw [gridCoords]
    split
    · simpa using ih _
    · simp

/-- The zoom clamp lands in [0.1, 8]. -/
theorem clamp_zoom_bounds (v : ℚ) : 0.1 ≤ clamp v 0.1 8 ∧ clamp v 0.1 8 ≤ 8 :=
  ⟨le_min (by norm_num) (le_max_left _ _), min_le_left _ _⟩

/-- The zoom clamp fixes values already in [0.1, 8]. -/
theorem clamp_eq_self (v : ℚ) (h1 : 0.1 ≤ v) (h2 : v ≤ 8) : clamp v 0.1 8 = v := by
  unfold clamp
  rw [max_eq_right h1, min_eq_right h2]

/-- Mapping successor over range gives the range starting at 1. -/
theorem range_map_succ (n : ℕ) : (List.range n).map (fun i => i + 1) = List.range' 1 n := by
  rw [List.range'_eq_map_range]
  exact List.map_congr_left fun i _ => Nat.add_comm i 1

/-- Numbering preserves the list length. -/
theorem numberSeats_length {K : Type} [LinearOrderedField K] (raw : List (RawSeat K)) :
    (numberSeats raw).length = raw.length := by
  simp [numberSeats]

/-- Numbered seats carry seat numbers 1, 2, ... in push order. -/
theorem numberSeats_map_seatNumber {K : Type} [LinearOrderedField K] (raw : List (RawSeat K)) :
    (numberSeats raw).map SeatPosition.seatNumber = List.range' 1 raw.length := by
  have aux : ∀ (l : List (RawSeat K)) (n : ℕ),
      ((List.enumFrom n l).map fun p => (⟨p.2.position, p.2.angle, p.1 + 1⟩ : SeatPosition K)).map
          SeatPosition.seatNumber = List.range' (n + 1) l.length := by
    intro l
    induction l with
    | nil => intro n; simp [List.enumFrom]
    | cons a l ih => intro n; simp [List.enumFrom, List.range', ih]
  exact aux raw 0

/-- Length of the horizontal-orientation corner seat list. -/
theorem rectEndSeatsH_length {K : Type} [LinearOrderedField K] (tr : Trig K)
    (width height offset rotation : K) (a : ℕ) :
    (rectEndSeatsH tr width height offset rotation a).length = min a 4 := by
  unfold rectEndSeatsH
  split_ifs <;> simp <;> omega

/-- Length of the vertical-orientation corner seat list. -/
theorem rectEndSeatsV_length {K : Type} [LinearOrderedField K] (tr : Trig K)
    (width height offset rotation : K) (a : ℕ) :
    (rectEndSeatsV tr width height offset rotation a).length = min a 4 := by
  unfold rectEndSeatsV
  split_ifs <;> simp <;> omega

/-- Length of the top edge seat list. -/
theorem rectTopEdgeSeats_length {K : Type} [LinearOrderedField K] (tr : Trig K)
    (width height offset rotation : K) (a topSeats : ℕ) :
    (rectTopEdgeSeats tr width height offset rotation a topSeats).length = topSeats := by
  simp [rectTopEdgeSeats]

/-- Length of the bottom edge seat list. -/
theorem rectBottomEdgeSeats_length {K : Type} [LinearOrderedField K] (tr : Trig K)
    (width height offset rotation : K) (bottomSeats : ℕ) :
    (rectBottomEdgeSeats tr width height offset rotation bottomSeats).length = bottomSeats := by
  simp [rectBottomEdgeSeats]

/-- Length of the left edge seat list. -/
theorem rectLeftEdgeSeats_length {K : Type} [LinearOrderedField K] (tr : Trig K)
    (width height offset rotation : K) (leftSeats : ℕ) :
    (rectLeftEdgeSeats tr width height offset rotation leftSeats).length = leftSeats := by
  simp [rectLeftEdgeSeats]

/-- Length of the right edge seat list. -/
theorem rectRightEdgeSeats_length {K : Type} [LinearOrderedField K] (tr : Trig K)
    (width height offset rotation : K) (rightSeats : ℕ) :
    (rectRightEdgeSeats tr width height offset rotation rightSeats).length = rightSeats := by
  simp [rectRightEdgeSeats]

/-- Length of one square side list. -/
theorem squareSideSeats_length {K : Type} [LinearOrderedField K] (tr : Trig K) (rotation : K)
    (seats : ℕ) (startX startY endX endY sideAngle : K) :
    (squareSideSeats tr rotation seats startX startY endX endY sideAngle).length = seats := by
  simp [squareSideSeats]

/-! Claim theorems. -/

/-- C3: for every table with a valid shape and seatCount in [1,20],
getSeatPositions returns exactly seatCount seat positions whose seatNumber
fields are 1..seatCount contiguously in order, in every branch (round,
square, rectangular perimeter fallback and rectangular corner-priority). -/
theorem claim3_seatNumbers {K : Type} [LinearOrderedField K] (tr : Trig K) (table : Table K)
    (h1 : 1 ≤ table.seatCount) (h2 : table.seatCount ≤ 20) :
    (getSeatPositions tr table).length = table.seatCount ∧
    (getSeatPositions tr table).map SeatPosition.seatNumber = List.range' 1 table.seatCount := by
  have hmap : (getSeatPositions tr table).map SeatPosition.seatNumber
      = List.range' 1 table.seatCount := by
    obtain ⟨shape, n, size, rot, cfg⟩ := table
    cases shape with
    | round =>
      simp only [getSeatPositions, getRoundTableSeatPositions, List.map_map]
      exact range_map_succ n
    | rect =>
      simp only [getSeatPositions, getRectTableSeatPositions]
      by_cases hle : n ≤ 4
      · rw [if_pos hle]
        simp only [distributeSeatsAroundPerimeter, List.map_map]
        exact range_map_succ n
      · rw [if_neg hle]
        by_cases hor : size.height ≤ size.width
        · rw [if_pos hor, numberSeats_map_seatNumber]
          congr 1
          simp only [List.length_append, rectEndSeatsH_length, rectTopEdgeSeats_length,
            rectBottomEdgeSeats_length]
          omega
        · rw [if_neg hor, numberSeats_map_seatNumber]
          congr 1
          simp only [List.length_append, rectEndSeatsV_length, rectLeftEdgeSeats_length,
            rectRightEdgeSeats_length]
          omega
    | square =>
      simp only [getSeatPositions, getSquareTableSeatPositions, numberSeats_map_seatNumber]
      congr 1
      simp only [List.length_append, squareSideSeats_length]
      split_ifs <;> omega
  refine ⟨?_, hmap⟩
  have hlen := congrArg List.length hmap
  simpa using hlen

/-- Witness for C3 at a concrete corner-priority rectangular table. -/
theorem claim3_witness :
    1 ≤ 7 ∧ 7 ≤ 20 ∧
    (getSeatPositions constTrig ⟨TableShape.rect, 7, ⟨100, 50⟩, 0, some ⟨some 3⟩⟩).map
        SeatPosition.seatNumber = List.range' 1 7 :=
  ⟨by decide, by decide,
    (claim3_seatNumbers constTrig ⟨TableShape.rect, 7, ⟨100, 50⟩, 0, some ⟨some 3⟩⟩
      (by decide) (by decide)).2⟩

/-- C8: for every transform with nonzero zoom and every point,
worldToScreen and screenToWorld are mutual inverses (exactly, in exact
arithmetic). -/
theorem claim8_roundTrip (t : ViewTransform) (p : Vec2 ℚ) (h : t.zoom ≠ 0) :
    worldToScreen (screenToWorld p t) t = p ∧ screenToWorld (worldToScreen p t) t = p := by
  constructor <;>
    · apply Vec2.ext <;>
        · simp only [worldToScreen, screenToWorld]
          field_simp

/-- Witness for C8 at a concrete transform and point. -/
theorem claim8_witness :
    (⟨2, ⟨5, 7⟩⟩ : ViewTransform).zoom ≠ 0 ∧
    worldToScreen (screenToWorld ⟨3, 4⟩ ⟨2, ⟨5, 7⟩⟩) ⟨2, ⟨5, 7⟩⟩ = ⟨3, 4⟩ :=
  ⟨by norm_num, (claim8_roundTrip ⟨2, ⟨5, 7⟩⟩ ⟨3, 4⟩ (by norm_num)).1⟩

/-- C9: getVisibleGridLines always returns at most 400 vertical and at most
400 horizontal lines, for every viewport, transform, gridSize and
majorEvery: the enumeration stops early at the cap instead of growing
unboundedly. -/
theorem claim9_gridCap (viewport : Viewport) (transform : ViewTransform)
    (gridSize : ℚ) (majorEvery : ℤ) :
    (getVisibleGridLines viewport transform gridSize majorEvery).verticals.length ≤ 400 ∧
    (getVisibleGridLines viewport transform gridSize majorEvery).horizontals.length ≤ 400 := by
  simp only [getVisibleGridLines, List.length_map]
  exact ⟨gridCoords_length_le _ _ _ _, gridCoords_length_le _ _ _ _⟩

/-- C2 counterexample: lerpTransform applies no zoom clamp, so its output
zoom can leave [0.1, 8] (here the inputs are even valid transforms; the
interpolation parameter 2 produces zoom 15). -/
theorem claim2_counterexample :
    (lerpTransform ⟨1, ⟨0, 0⟩⟩ ⟨8, ⟨0, 0⟩⟩ 2).zoom = 15 ∧
    ¬ (lerpTransform ⟨1, ⟨0, 0⟩⟩ ⟨8, ⟨0, 0⟩⟩ 2).zoom ≤ 8 := by
  simp only [lerpTransform, lerp, lerpVec2]
  norm_num

/-- C2 (amended): calculateFitTransform and calculateZoomAtPoint always
return a zoom in [0.1, 8]; lerpTransform does not clamp, but its zoom stays
in [0.1, 8] whenever both input zooms are in that interval and the
interpolation parameter lies in [0, 1]. -/
theorem claim2_amended :
    (∀ (bounds : Bounds) (viewport : Viewport) (padding : ℚ),
        0.1 ≤ (calculateFitTransform bounds viewport padding).zoom ∧
        (calculateFitTransform bounds viewport padding).zoom ≤ 8) ∧
    (∀ (ct : ViewTransform) (zp : Vec2 ℚ) (nz : ℚ),
        0.1 ≤ (calculateZoomAtPoint ct zp nz).zoom ∧
        (calculateZoomAtPoint ct zp nz).zoom ≤ 8) ∧
    (∀ (a b : ViewTransform) (t : ℚ), 0.1 ≤ a.zoom → a.zoom ≤ 8 → 0.1 ≤ b.zoom →
        b.zoom ≤ 8 → 0 ≤ t → t ≤ 1 →
        0.1 ≤ (lerpTransform a b t).zoom ∧ (lerpTransform a b t).zoom ≤ 8) := by
  refine ⟨?_, ?_, ?_⟩
  · intro bounds viewport padding
    simp only [calculateFitTransform]
    split
    · constructor <;> norm_num
    · exact clamp_zoom_bounds _
  · intro ct zp nz
    simp only [calculateZoomAtPoint]
    split
    · next h => rw [← h]; exact clamp_zoom_bounds _
    · exact clamp_zoom_bounds _
  · intro a b t ha1 ha2 hb1 hb2 ht0 ht1
    simp only [lerpTransform, lerp, lerpVec2]
    constructor <;> nlinarith

/-- Witness for C2 at a concrete in-range interpolation. -/
theorem claim2_witness :
    (0.1 : ℚ) ≤ (⟨1, ⟨0, 0⟩⟩ : ViewTransform).zoom ∧ (⟨1, ⟨0, 0⟩⟩ : ViewTransform).zoom ≤ 8 ∧
    (0.1 : ℚ) ≤ (⟨2, ⟨0, 0⟩⟩ : ViewTransform).zoom ∧ (⟨2, ⟨0, 0⟩⟩ : ViewTransform).zoom ≤ 8 ∧
    (0 : ℚ) ≤ 1 / 2 ∧ (1 / 2 : ℚ) ≤ 1 ∧
    0.1 ≤ (lerpTransform ⟨1, ⟨0, 0⟩⟩ ⟨2, ⟨0, 0⟩⟩ (1 / 2)).zoom ∧
    (lerpTransform ⟨1, ⟨0, 0⟩⟩ ⟨2, ⟨0, 0⟩⟩ (1 / 2)).zoom ≤ 8 :=
  ⟨by norm_num, by norm_num, by norm_num, by norm_num, by norm_num, by norm_num,
    (claim2_amended.2.2 ⟨1, ⟨0, 0⟩⟩ ⟨2, ⟨0, 0⟩⟩ (1 / 2) (by norm_num) (by norm_num)
      (by norm_num) (by norm_num) (by norm_num) (by norm_num)).1,
    (claim2_amended.2.2 ⟨1, ⟨0, 0⟩⟩ ⟨2, ⟨0, 0⟩⟩ (1 / 2) (by norm_num) (by norm_num)
      (by norm_num) (by norm_num) (by norm_num) (by norm_num)).2⟩

/-- C4: for a current transform with zoom in [0.1, 8], any zoom point and
any new zoom, calculateZoomAtPoint returns zoom = clamp(newZoom, 0.1, 8);
when the clamped value equals the current zoom the input transform is
returned unchanged, so a repeated call with the already-clamped zoom is a
no-op; otherwise the pan keeps the world point under the anchor screen
point, exactly in exact arithmetic. -/
theorem claim4_zoomAtPoint (ct : ViewTransform) (zp : Vec2 ℚ) (nz : ℚ)
    (h1 : 0.1 ≤ ct.zoom) (h2 : ct.zoom ≤ 8) :
    (calculateZoomAtPoint ct zp nz).zoom = clamp nz 0.1 8 ∧
    (clamp nz 0.1 8 = ct.zoom → calculateZoomAtPoint ct zp nz = ct) ∧
    calculateZoomAtPoint (calculateZoomAtPoint ct zp nz) zp (calculateZoomAtPoint ct zp nz).zoom
      = calculateZoomAtPoint ct zp nz ∧
    (clamp nz 0.1 8 ≠ ct.zoom →
      worldToScreen (screenToWorld zp ct) (calculateZoomAtPoint ct zp nz) = zp) := by
  by_cases hc : clamp nz 0.1 8 = ct.zoom
  · have hr : calculateZoomAtPoint ct zp nz = ct := by
      simp only [calculateZoomAtPoint]
      rw [if_pos hc]
    refine ⟨by rw [hr, ← hc], fun _ => hr, ?_, fun hne => absurd hc hne⟩
    rw [hr]
    simp only [calculateZoomAtPoint]
    rw [clamp_eq_self ct.zoom h1 h2, if_pos rfl]
  · have hr : calculateZoomAtPoint ct zp nz =
        ⟨clamp nz 0.1 8,
         ⟨zp.x - (zp.x - ct.pan.x) / ct.zoom * clamp nz 0.1 8,
          zp.y - (zp.y - ct.pan.y) / ct.zoom * clamp nz 0.1 8⟩⟩ := by
      simp only [calculateZoomAtPoint, screenToWorld]
      rw [if_neg hc]
    refine ⟨by rw [hr], fun h => absurd h hc, ?_, fun _ => ?_⟩
    · rw [hr]
      simp only [calculateZoomAtPoint]
      rw [clamp_eq_self _ (clamp_zoom_bounds nz).1 (clamp_zoom_bounds nz).2, if_pos rfl]
    · rw [hr]
      simp only [worldToScreen, screenToWorld]
      apply Vec2.ext <;> (simp only; ring)

/-- Witness for C4 at the spec's zoom-at-point scenario. -/
theorem claim4_witness :
    (0.1 : ℚ) ≤ (⟨1, ⟨0, 0⟩⟩ : ViewTransform).zoom ∧ (⟨1, ⟨0, 0⟩⟩ : ViewTransform).zoom ≤ 8 ∧
    worldToScreen (screenToWorld ⟨100, 100⟩ ⟨1, ⟨0, 0⟩⟩)
      (calculateZoomAtPoint ⟨1, ⟨0, 0⟩⟩ ⟨100, 100⟩ 2) = ⟨100, 100⟩ :=
  ⟨by norm_num, by norm_num,
    (claim4_zoomAtPoint ⟨1, ⟨0, 0⟩⟩ ⟨100, 100⟩ 2 (by norm_num) (by norm_num)).2.2.2
      (by rw [clamp_eq_self 2 (by norm_num) (by norm_num)]; norm_num)⟩

/-- C7: calculateFitTransform returns the identity transform exactly when
the bounds have nonpositive width or height; otherwise its zoom is the
clamped min of the two available-space ratios and its pan maps the bounds
center exactly onto the viewport center. -/
theorem claim7_fitTransform (bounds : Bounds) (viewport : Viewport) (padding : ℚ) :
    ((bounds.max.x - bounds.min.x ≤ 0 ∨ bounds.max.y - bounds.min.y ≤ 0) →
        calculateFitTransform bounds viewport padding = ⟨1, ⟨0, 0⟩⟩) ∧
    (0 < bounds.max.x - bounds.min.x → 0 < bounds.max.y - bounds.min.y →
        (calculateFitTransform bounds viewport padding).zoom =
          clamp (min ((viewport.width - 2 * padding) / (bounds.max.x - bounds.min.x))
            ((viewport.height - 2 * padding) / (bounds.max.y - bounds.min.y))) 0.1 8 ∧
        worldToScreen ⟨(bounds.min.x + bounds.max.x) / 2, (bounds.min.y + bounds.max.y) / 2⟩
            (calculateFitTransform bounds viewport padding) =
          ⟨viewport.width / 2, viewport.height / 2⟩) := by
  constructor
  · intro hdeg
    simp only [calculateFitTransform]
    rw [if_pos hdeg]
  · intro hw hh
    have hne : ¬ (bounds.max.x - bounds.min.x ≤ 0 ∨ bounds.max.y - bounds.min.y ≤ 0) := by
      push_neg
      exact ⟨hw, hh⟩
    have hr : calculateFitTransform bounds viewport padding =
        ⟨clamp (min ((viewport.width - padding * 2) / (bounds.max.x - bounds.min.x))
            ((viewport.height - padding * 2) / (bounds.max.y - bounds.min.y))) 0.1 8,
         ⟨viewport.width / 2 - (bounds.min.x + bounds.max.x) / 2 *
            clamp (min ((viewport.width - padding * 2) / (bounds.max.x - bounds.min.x))
              ((viewport.height - padding * 2) / (bounds.max.y - bounds.min.y))) 0.1 8,
          viewport.height / 2 - (bounds.min.y + bounds.max.y) / 2 *
            clamp (min ((viewport.width - padding * 2) / (bounds.max.x - bounds.min.x))
              ((viewport.height - padding * 2) / (bounds.max.y - bounds.min.y))) 0.1 8⟩⟩ := by
      simp only [calculateFitTransform]
      rw [if_neg hne]
    constructor
    · rw [hr]
      have : viewport.width - padding * 2 = viewport.width - 2 * padding := by ring
      rw [this]
      have : viewport.height - padding * 2 = viewport.height - 2 * padding := by ring
      rw [this]
    · rw [hr]
      simp only [worldToScreen]
      apply Vec2.ext <;> (simp only; ring)

/-- Witness for C7 at a concrete non-degenerate bounds and viewport. -/
theorem claim7_witness :
    (0 : ℚ) < (⟨⟨0, 0⟩, ⟨100, 50⟩⟩ : Bounds).max.x - (⟨⟨0, 0⟩, ⟨100, 50⟩⟩ : Bounds).min.x ∧
    (0 : ℚ) < (⟨⟨0, 0⟩, ⟨100, 50⟩⟩ : Bounds).max.y - (⟨⟨0, 0⟩, ⟨100, 50⟩⟩ : Bounds).min.y ∧
    worldToScreen ⟨(0 + 100) / 2, (0 + 50) / 2⟩
        (calculateFitTransform ⟨⟨0, 0⟩, ⟨100, 50⟩⟩ ⟨800, 600⟩ 20) = ⟨800 / 2, 600 / 2⟩ :=
  ⟨by norm_num, by norm_num,
    ((claim7_fitTransform ⟨⟨0, 0⟩, ⟨100, 50⟩⟩ ⟨800, 600⟩ 20).2 (by norm_num) (by norm_num)).2⟩

/-- C5: a round table with seatCount in [1,20], positive width and any
rotation yields seatCount seats; seat i sits at angle
i * (2π / seatCount) + rotation * π / 180 on the circle of radius
width / 2 + 30, faces that angle plus π / 2, is numbered i + 1, and its
distance from the origin is exactly width / 2 + 30 independently of the
rotation. -/
theorem claim5_roundTable (n : ℕ) (w hgt θ : ℝ) (h1 : 1 ≤ n) (h2 : n ≤ 20) (hw : 0 < w) :
    (getSeatPositions (Trig.mk Real.cos Real.sin Real.pi)
        (Table.mk TableShape.round n (Size.mk w hgt) θ none)).length = n ∧
    (∀ i, i < n →
      (getSeatPositions (Trig.mk Real.cos Real.sin Real.pi)
          (Table.mk TableShape.round n (Size.mk w hgt) θ none))[i]? =
        some (SeatPosition.mk
          (Vec2.mk
            (Real.cos ((i : ℝ) * (2 * Real.pi / (n : ℝ)) + θ * Real.pi / 180) * (w / 2 + 30))
            (Real.sin ((i : ℝ) * (2 * Real.pi / (n : ℝ)) + θ * Real.pi / 180) * (w / 2 + 30)))
          ((i : ℝ) * (2 * Real.pi / (n : ℝ)) + θ * Real.pi / 180 + Real.pi / 2)
          (i + 1))) ∧
    (∀ p ∈ getSeatPositions (Trig.mk Real.cos Real.sin Real.pi)
        (Table.mk TableShape.round n (Size.mk w hgt) θ none),
      Real.sqrt (p.position.x ^ 2 + p.position.y ^ 2) = w / 2 + 30) := by
  refine ⟨?_, ?_, ?_⟩
  · simp [getSeatPositions, getRoundTableSeatPositions]
  · intro i hi
    simp only [getSeatPositions, getRoundTableSeatPositions]
    rw [List.getElem?_map, List.getElem?_range hi]
    rfl
  · intro p hp
    simp only [getSeatPositions, getRoundTableSeatPositions, List.mem_map,
      List.mem_range] at hp
    obtain ⟨i, hi, heq⟩ := hp
    have hr : (0 : ℝ) ≤ w / 2 + 30 := by linarith
    rw [← heq]
    have key : (Real.cos ((i : ℝ) * (2 * Real.pi / (n : ℝ)) + θ * Real.pi / 180) * (w / 2 + 30)) ^ 2
        + (Real.sin ((i : ℝ) * (2 * Real.pi / (n : ℝ)) + θ * Real.pi / 180) * (w / 2 + 30)) ^ 2
        = (w / 2 + 30) ^ 2 := by
      nlinarith [Real.sin_sq_add_cos_sq ((i : ℝ) * (2 * Real.pi / (n : ℝ)) + θ * Real.pi / 180)]
    calc Real.sqrt (_ ^ 2 + _ ^ 2) = Real.sqrt ((w / 2 + 30) ^ 2) := by rw [key]
    _ = w / 2 + 30 := Real.sqrt_sq hr

/-- Witness for C5 at a four-seat round table of width 100 and rotation 0. -/
theorem claim5_witness :
    1 ≤ 4 ∧ 4 ≤ 20 ∧ (0 : ℝ) < 100 ∧
    (getSeatPositions (Trig.mk Real.cos Real.sin Real.pi)
        (Table.mk TableShape.round 4 (Size.mk 100 100) 0 none)).length = 4 ∧
    (getSeatPositions (Trig.mk Real.cos Real.sin Real.pi)
        (Table.mk TableShape.round 4 (Size.mk 100 100) 0 none))[0]? =
      some (SeatPosition.mk
        (Vec2.mk
          (Real.cos (((0 : ℕ) : ℝ) * (2 * Real.pi / ((4 : ℕ) : ℝ)) + 0 * Real.pi / 180) * (100 / 2 + 30))
          (Real.sin (((0 : ℕ) : ℝ) * (2 * Real.pi / ((4 : ℕ) : ℝ)) + 0 * Real.pi / 180) * (100 / 2 + 30)))
        (((0 : ℕ) : ℝ) * (2 * Real.pi / ((4 : ℕ) : ℝ)) + 0 * Real.pi / 180 + Real.pi / 2)
        (0 + 1)) :=
  ⟨by norm_num, by norm_num, by norm_num,
    (claim5_roundTable 4 100 100 0 (by norm_num) (by norm_num) (by norm_num)).1,
    (claim5_roundTable 4 100 100 0 (by norm_num) (by norm_num) (by norm_num)).2.1 0 (by norm_num)⟩

/-- C6: square seats are assigned to the sides in the fixed order top,
right, bottom, left, side k receiving seatCount / 4 + (1 if k < seatCount
mod 4 else 0) seats; seatCount = 8 gives 2 per side, seatCount = 6 gives
counts 2, 2, 1, 1 with each single-seat side centered at that side's
midpoint. -/
theorem claim6_squareDistribution {K : Type} [LinearOrderedField K] (tr : Trig K) (n : ℕ)
    (size rotation : K) (h1 : 1 ≤ n) (h2 : n ≤ 20) :
    getSquareTableSeatPositions tr n size rotation =
      numberSeats
        (squareSideSeats tr rotation (squareSideCount n 0)
            (-(size / 2)) (-(size / 2) - 30) (size / 2) (-(size / 2) - 30) (tr.pi / 2)
          ++ squareSideSeats tr rotation (squareSideCount n 1)
            (size / 2 + 30) (-(size / 2)) (size / 2 + 30) (size / 2) tr.pi
          ++ squareSideSeats tr rotation (squareSideCount n 2)
            (size / 2) (size / 2 + 30) (-(size / 2)) (size / 2 + 30) (-(tr.pi) / 2)
          ++ squareSideSeats tr rotation (squareSideCount n 3)
            (-(size / 2) - 30) (size / 2) (-(size / 2) - 30) (-(size / 2)) 0) ∧
    (n = 8 → squareSideCount 8 0 = 2 ∧ squareSideCount 8 1 = 2 ∧
      squareSideCount 8 2 = 2 ∧ squareSideCount 8 3 = 2) ∧
    (n = 6 →
      (squareSideCount 6 0 = 2 ∧ squareSideCount 6 1 = 2 ∧
        squareSideCount 6 2 = 1 ∧ squareSideCount 6 3 = 1) ∧
      squareSideSeats tr rotation (squareSideCount 6 2)
          (size / 2) (size / 2 + 30) (-(size / 2)) (size / 2 + 30) (-(tr.pi) / 2) =
        [RawSeat.mk (rotatePoint tr (Vec2.mk 0 (size / 2 + 30)) rotation)
          (-(tr.pi) / 2 + rotation * tr.pi / 180)] ∧
      squareSideSeats tr rotation (squareSideCount 6 3)
          (-(size / 2) - 30) (size / 2) (-(size / 2) - 30) (-(size / 2)) 0 =
        [RawSeat.mk (rotatePoint tr (Vec2.mk (-(size / 2) - 30) 0) rotation)
          (0 + rotation * tr.pi / 180)]) := by
  refine ⟨?_, ?_, ?_⟩
  · have h4 : ¬ 3 < n % 4 := by omega
    simp only [getSquareTableSeatPositions, squareSideCount, if_neg h4, Nat.add_zero]
  · intro _
    refine ⟨?_, ?_, ?_, ?_⟩ <;> simp [squareSideCount]
  · intro _
    refine ⟨⟨?_, ?_, ?_, ?_⟩, ?_, ?_⟩
    · simp [squareSideCount]
    · simp [squareSideCount]
    · simp [squareSideCount]
    · simp [squareSideCount]
    · have hc : squareSideCount 6 2 = 1 := by simp [squareSideCount]
      rw [hc]
      simp only [squareSideSeats, List.range_succ, List.range_zero, List.nil_append,
        List.map_cons, List.map_nil, if_true, List.cons.injEq, and_true, RawSeat.mk.injEq]
      congr 1
      apply Vec2.ext <;> (simp only; ring)
    · have hc : squareSideCount 6 3 = 1 := by simp [squareSideCount]
      rw [hc]
      simp only [squareSideSeats, List.range_succ, List.range_zero, List.nil_append,
        List.map_cons, List.map_nil, if_true, List.cons.injEq, and_true, RawSeat.mk.injEq]
      congr 1
      apply Vec2.ext <;> (simp only; ring)

/-- Witness for C6 at a six-seat square table. -/
theorem claim6_witness :
    1 ≤ 6 ∧ 6 ≤ 20 ∧
    getSquareTableSeatPositions constTrig 6 100 0 =
      numberSeats
        (squareSideSeats constTrig 0 (squareSideCount 6 0)
            (-(100 / 2)) (-(100 / 2) - 30) (100 / 2) (-(100 / 2) - 30) (constTrig.pi / 2)
          ++ squareSideSeats constTrig 0 (squareSideCount 6 1)
            (100 / 2 + 30) (-(100 / 2)) (100 / 2 + 30) (100 / 2) constTrig.pi
          ++ squareSideSeats constTrig 0 (squareSideCount 6 2)
            (100 / 2) (100 / 2 + 30) (-(100 / 2)) (100 / 2 + 30) (-(constTrig.pi) / 2)
          ++ squareSideSeats constTrig 0 (squareSideCount 6 3)
            (-(100 / 2) - 30) (100 / 2) (-(100 / 2) - 30) (-(100 / 2)) 0) :=
  ⟨by decide, by decide,
    (claim6_squareDistribution constTrig 6 100 0 (by decide) (by decide)).1⟩

/-- Indexing into a numbered seat list: entry i carries seat number i + 1. -/
theorem numberSeats_getElem? {K : Type} [LinearOrderedField K] (raw : List (RawSeat K)) (i : ℕ) :
    (numberSeats raw)[i]? = (raw[i]?).map fun s => ⟨s.position, s.angle, i + 1⟩ := by
  simp [numberSeats, List.getElem?_enum, Option.map_map]
  rfl

/-- C10: a rectangular table with seatCount > 4 and no seatConfig gets
exactly the corner-priority layout of cornerSeats = 2 (the JS default
parameter): for width >= height seat 1 is the right-end seat at
(width/2 + 30, 0) and seat 2 the left-end seat at (-width/2 - 30, 0)
before rotation; for width < height seat 1 is the top end and seat 2 the
bottom end; the remaining seatCount - 2 seats are split
ceil((seatCount-2)/2) on the first long edge and the rest on the second. -/
theorem claim10_rectDefault {K : Type} [LinearOrderedField K] (tr : Trig K) (n : ℕ)
    (size : Size K) (rotation : K) (h : 4 < n) :
    getSeatPositions tr (Table.mk TableShape.rect n size rotation none) =
      getSeatPositions tr (Table.mk TableShape.rect n size rotation
        (some (SeatConfig.mk (some 2)))) ∧
    (size.height ≤ size.width →
      getSeatPositions tr (Table.mk TableShape.rect n size rotation none) =
        numberSeats (rectEndSeatsH tr size.width size.height 30 rotation 2
          ++ rectTopEdgeSeats tr size.width size.height 30 rotation 2 ((n - 2 + 1) / 2)
          ++ rectBottomEdgeSeats tr size.width size.height 30 rotation
              ((n - 2) - (n - 2 + 1) / 2)) ∧
      (getSeatPositions tr (Table.mk TableShape.rect n size rotation none))[0]? =
        some (SeatPosition.mk (rotatePoint tr (Vec2.mk (size.width / 2 + 30) 0) rotation)
          (tr.pi + rotation * tr.pi / 180) 1) ∧
      (getSeatPositions tr (Table.mk TableShape.rect n size rotation none))[1]? =
        some (SeatPosition.mk (rotatePoint tr (Vec2.mk (-(size.width / 2) - 30) 0) rotation)
          (0 + rotation * tr.pi / 180) 2)) ∧
    (size.width < size.height →
      getSeatPositions tr (Table.mk TableShape.rect n size rotation none) =
        numberSeats (rectEndSeatsV tr size.width size.height 30 rotation 2
          ++ rectLeftEdgeSeats tr size.width size.height 30 rotation ((n - 2 + 1) / 2)
          ++ rectRightEdgeSeats tr size.width size.height 30 rotation
              ((n - 2) - (n - 2 + 1) / 2)) ∧
      (getSeatPositions tr (Table.mk TableShape.rect n size rotation none))[0]? =
        some (SeatPosition.mk (rotatePoint tr (Vec2.mk 0 (-(size.height / 2) - 30)) rotation)
          (tr.pi / 2 + rotation * tr.pi / 180) 1) ∧
      (getSeatPositions tr (Table.mk TableShape.rect n size rotation none))[1]? =
        some (SeatPosition.mk (rotatePoint tr (Vec2.mk 0 (size.height / 2 + 30)) rotation)
          (-(tr.pi) / 2 + rotation * tr.pi / 180) 2)) := by
  have hn4 : ¬ n ≤ 4 := by omega
  have hmin : min (min 2 n) 4 = 2 := by omega
  refine ⟨rfl, fun hor => ?_, fun hver => ?_⟩
  · have hdec : getSeatPositions tr (Table.mk TableShape.rect n size rotation none) =
        numberSeats (rectEndSeatsH tr size.width size.height 30 rotation 2
          ++ rectTopEdgeSeats tr size.width size.height 30 rotation 2 ((n - 2 + 1) / 2)
          ++ rectBottomEdgeSeats tr size.width size.height 30 rotation
              ((n - 2) - (n - 2 + 1) / 2)) := by
      simp only [getSeatPositions, getRectTableSeatPositions, Option.none_bind,
        Option.getD_none]
      rw [if_neg hn4, if_pos hor, hmin]
    have hA : rectEndSeatsH tr size.width size.height 30 rotation 2 =
        [RawSeat.mk (rotatePoint tr (Vec2.mk (size.width / 2 + 30) 0) rotation)
           (tr.pi + rotation * tr.pi / 180),
         RawSeat.mk (rotatePoint tr (Vec2.mk (-(size.width / 2) - 30) 0) rotation)
           (0 + rotation * tr.pi / 180)] := by
      norm_num [rectEndSeatsH]
    refine ⟨hdec, ?_, ?_⟩
    · rw [hdec, hA, numberSeats_getElem?]
      simp
    · rw [hdec, hA, numberSeats_getElem?]
      simp
  · have hor' : ¬ size.height ≤ size.width := not_le.mpr hver
    have hdec : getSeatPositions tr (Table.mk TableShape.rect n size rotation none) =
        numberSeats (rectEndSeatsV tr size.width size.height 30 rotation 2
          ++ rectLeftEdgeSeats tr size.width size.height 30 rotation ((n - 2 + 1) / 2)
          ++ rectRightEdgeSeats tr size.width size.height 30 rotation
              ((n - 2) - (n - 2 + 1) / 2)) := by
      simp only [getSeatPositions, getRectTableSeatPositions, Option.none_bind,
        Option.getD_none]
      rw [if_neg hn4, if_neg hor', hmin]
    have hA : rectEndSeatsV tr size.width size.height 30 rotation 2 =
        [RawSeat.mk (rotatePoint tr (Vec2.mk 0 (-(size.height / 2) - 30)) rotation)
           (tr.pi / 2 + rotation * tr.pi / 180),
         RawSeat.mk (rotatePoint tr (Vec2.mk 0 (size.height / 2 + 30)) rotation)
           (-(tr.pi) / 2 + rotation * tr.pi / 180)] := by
      norm_num [rectEndSeatsV]
    refine ⟨hdec, ?_, ?_⟩
    · rw [hdec, hA, numberSeats_getElem?]
      simp
    · rw [hdec, hA, numberSeats_getElem?]
      simp

/-- Witness for C10 at a six-seat rectangular table without seatConfig. -/
theorem claim10_witness :
    4 < 6 ∧
    getSeatPositions constTrig (Table.mk TableShape.rect 6 (Size.mk 100 50) 0 none) =
      getSeatPositions constTrig (Table.mk TableShape.rect 6 (Size.mk 100 50) 0
        (some (SeatConfig.mk (some 2)))) :=
  ⟨by decide, (claim10_rectDefault constTrig 6 ⟨100, 50⟩ 0 (by decide)).1⟩

/-- C1 (failing input): a rectangular table with seatCount = 5, size
100 x 50, rotation 0 and no seatConfig is routed through the
corner-priority policy with the defaulted cornerSeats = 2 — its first seat
is the right-end seat at (80, 0) — whereas the perimeter fallback the spec
prescribes for an absent seatConfig would put the first seat at
(-50, -55) on the top edge; the two layouts differ. -/
theorem claim1_failingInput :
    (getSeatPositions (Trig.mk Real.cos Real.sin Real.pi)
        (Table.mk TableShape.rect 5 (Size.mk 100 50) 0 none))[0]? =
      some (SeatPosition.mk (Vec2.mk 80 0) Real.pi 1) ∧
    (distributeSeatsAroundPerimeter (Trig.mk Real.cos Real.sin Real.pi) 5
        (Size.mk 100 50) 0)[0]? =
      some (SeatPosition.mk (Vec2.mk (-50) (-55)) (Real.pi / 2) 1) ∧
    getSeatPositions (Trig.mk Real.cos Real.sin Real.pi)
        (Table.mk TableShape.rect 5 (Size.mk 100 50) 0 none) ≠
      distributeSeatsAroundPerimeter (Trig.mk Real.cos Real.sin Real.pi) 5
        (Size.mk 100 50) 0 := by
  have hc1 : (getSeatPositions (Trig.mk Real.cos Real.sin Real.pi)
      (Table.mk TableShape.rect 5 (Size.mk 100 50) 0 none))[0]? =
      some (SeatPosition.mk (Vec2.mk 80 0) Real.pi 1) := by
    simp only [getSeatPositions, getRectTableSeatPositions, Option.none_bind,
      Option.getD_none]
    rw [if_neg (show ¬ (5 : ℕ) ≤ 4 by decide)]
    rw [if_pos (show ((50 : ℝ) ≤ 100) by norm_num)]
    rw [show min (min 2 5) 4 = 2 from by decide]
    rw [numberSeats_getElem?]
    have hA : rectEndSeatsH (Trig.mk Real.cos Real.sin Real.pi) (100 : ℝ) 50 30 0 2 =
        [RawSeat.mk (rotatePoint (Trig.mk Real.cos Real.sin Real.pi)
            (Vec2.mk (100 / 2 + 30) 0) 0) (Real.pi + 0 * Real.pi / 180),
         RawSeat.mk (rotatePoint (Trig.mk Real.cos Real.sin Real.pi)
            (Vec2.mk (-(100 / 2) - 30) 0) 0) (0 + 0 * Real.pi / 180)] := by
      norm_num [rectEndSeatsH]
    rw [hA]
    simp only [List.cons_append, List.getElem?_cons_zero, Option.map_some]
    norm_num [rotatePoint, Real.cos_zero, Real.sin_zero]
  have hc2 : (distributeSeatsAroundPerimeter (Trig.mk Real.cos Real.sin Real.pi) 5
      (Size.mk 100 50) 0)[0]? =
      some (SeatPosition.mk (Vec2.mk (-50) (-55)) (Real.pi / 2) 1) := by
    simp only [distributeSeatsAroundPerimeter]
    rw [List.getElem?_map, List.getElem?_range (show 0 < 5 by decide)]
    simp only [Option.map_some', Nat.cast_zero, zero_mul]
    rw [if_pos (show ((0 : ℝ) ≤ 100) by norm_num)]
    norm_num [rotatePoint, Real.cos_zero, Real.sin_zero]
  refine ⟨hc1, hc2, fun heq => ?_⟩
  rw [heq, hc2] at hc1
  have hseat := Option.some.inj hc1
  have hx := congrArg (fun s : SeatPosition ℝ => s.position.x) hseat
  norm_num at hx
